import Mathlib

/-!
Verification of the PromptPilot prompt-management dashboard.

The development embeds the analytics aggregation logic and the mock run
simulator from `src/pages/Analytics.tsx` (respectively the `loadAnalytics`
and `handleRun` functions of the pages bundled in that file), the static
model cost table `MODELS`, and the relational schema with its row-level
security policies and cascade constraint from the migration SQL.

Numbers are modelled with exact rationals: JavaScript performs the same
arithmetic on binary floats, but every property below is about the ideal
arithmetic the code spells out. `Math.round` is `round` (both round
halves up), `Math.floor` is `Int.floor`. A nullable column is an `Option`;
the JavaScript `x || 0` default on a numeric column is `Option.getD 0`.
-/

namespace PromptPilot

/-- A row of the `runs` table, as declared in the migration SQL
(nullable columns are options; `latency_ms` and `cost_usd` are kept as
rationals since the analytics arithmetic is rational). -/
structure RunRow where
  prompt_id : Option String
  model : String
  response : Option String
  tokens_used : Option ℤ
  latency_ms : Option ℚ
  cost_usd : Option ℚ
  status : Option String
  user_id : String
deriving DecidableEq

/-- One entry of the per-model breakdown computed by the analytics page:
`{ model, count, percentage }`. -/
structure BreakdownEntry where
  model : String
  count : ℕ
  percentage : ℚ
deriving DecidableEq

/-- The `stats` state of the Analytics page. -/
structure Stats where
  totalRuns : ℕ
  totalCost : ℚ
  avgLatency : ℤ
  successRate : ℤ
  modelBreakdown : List BreakdownEntry
deriving DecidableEq

/-- The initial `useState` value of `stats` on the Analytics page; it is
what the page still shows after aggregating an empty run set, because
`loadAnalytics` returns early without touching the state. -/
def initialStats : Stats :=
  { totalRuns := 0, totalCost := 0, avgLatency := 0, successRate := 0,
    modelBreakdown := [] }

/-- One step of the `runs.reduce` building `modelCounts`:
`acc[run.model] = (acc[run.model] || 0) + 1` on a JavaScript object,
i.e. an insertion-ordered association list. -/
def addModel (acc : List (String × ℕ)) (m : String) : List (String × ℕ) :=
  if acc.any (fun p => p.1 = m) then
    acc.map (fun p => if p.1 = m then (p.1, p.2 + 1) else p)
  else
    acc ++ [(m, 1)]

/-- The `modelCounts` object of `loadAnalytics`. -/
def modelCounts (runs : List RunRow) : List (String × ℕ) :=
  runs.foldl (fun acc r => addModel acc r.model) []

/-- The `modelBreakdown` array of `loadAnalytics`:
`Object.entries(modelCounts).map(([model, count]) => {model, count, percentage})`. -/
def modelBreakdownOf (runs : List RunRow) : List BreakdownEntry :=
  (modelCounts runs).map
    (fun p => { model := p.1, count := p.2,
                percentage := (p.2 : ℚ) / (runs.length : ℚ) * 100 })

/-- The stat computation of `loadAnalytics` on the Analytics page: on an
empty (or absent) run set it returns early, leaving the zeroed initial
state; otherwise it sums costs, averages latency (`Math.round`ed), takes
the percentage of rows with status exactly `completed` (`Math.round`ed),
and computes the model breakdown. -/
def loadAnalytics (runs : List RunRow) : Stats :=
  if runs.isEmpty then initialStats
  else
    { totalRuns := runs.length
      totalCost := runs.foldl (fun s r => s + r.cost_usd.getD 0) 0
      avgLatency :=
        round ((runs.foldl (fun s r => s + r.latency_ms.getD 0) 0) /
          (runs.length : ℚ))
      successRate :=
        round (((runs.filter (fun r => r.status = some "completed")).length : ℚ) /
          (runs.length : ℚ) * 100)
      modelBreakdown := modelBreakdownOf runs }

/-- An entry of the static `MODELS` list of the Run page. -/
structure ModelInfo where
  value : String
  label : String
  cost : ℚ
deriving DecidableEq

/-- The static `MODELS` table of the Run page (cost per 1K tokens). -/
def MODELS : List ModelInfo :=
  [ { value := "gpt-4", label := "GPT-4", cost := 3 / 100 },
    { value := "gpt-3.5-turbo", label := "GPT-3.5 Turbo", cost := 2 / 1000 },
    { value := "claude-3-opus", label := "Claude 3 Opus", cost := 15 / 1000 },
    { value := "claude-3-sonnet", label := "Claude 3 Sonnet", cost := 3 / 1000 },
    { value := "gemini-pro", label := "Gemini Pro", cost := 1 / 4000 } ]

/-- `MODELS.find(m => m.value === selectedModel)?.cost || 0`. -/
def modelCost (model : String) : ℚ :=
  match MODELS.find? (fun m => m.value = model) with
  | some m => m.cost
  | none => 0

/-- `cost = (tokens / 1000) * modelCost` in `handleRun`. -/
def computeCost (tokens : ℚ) (model : String) : ℚ :=
  tokens / 1000 * modelCost model

/-- The fabricated delay of `handleRun`, `2000 + Math.random() * 2000`,
as a function of the pseudo-random draw `r` in `[0, 1)`; the recorded
latency is idealised to this delay (event-loop scheduling time is not
modelled). -/
def simLatency (r : ℚ) : ℚ := 2000 + r * 2000

/-- The fabricated token count of `handleRun`,
`Math.floor(100 + Math.random() * 400)`, as a function of the
pseudo-random draw `r` in `[0, 1)`. -/
def simTokens (r : ℚ) : ℤ := Int.floor ((100 : ℚ) + r * 400)

/-- The fixed templated mock response of `handleRun`. -/
def simResponse (model : String) : String :=
  "This is a simulated response from " ++ model ++
    ". In a real implementation, this would call the actual LLM API."

/-- A row of the `prompts` table (the fields the embedded flows read). -/
structure Prompt where
  id : String
  title : String
  content : String
  model : String
  user_id : String
deriving DecidableEq

/-- Outcome of one invocation of `handleRun`: nothing selected (the
guard clause fires), the selected id not among the loaded prompts (the
thrown error is caught), the store insert rejected, or success carrying
the inserted row. -/
inductive RunOutcome where
  | noSelection : RunOutcome
  | promptNotFound : RunOutcome
  | storeError : RunOutcome
  | success : RunRow → RunOutcome
deriving DecidableEq

/-- The row `handleRun` inserts into `runs` on success. -/
def mkRunRow (p : Prompt) (selectedModel uid : String) (r1 r2 : ℚ) : RunRow :=
  { prompt_id := some p.id
    model := selectedModel
    response := some (simResponse selectedModel)
    tokens_used := some (simTokens r2)
    latency_ms := some (simLatency r1)
    cost_usd := some (computeCost ((simTokens r2 : ℤ) : ℚ) selectedModel)
    status := some "completed"
    user_id := uid }

/-- The `handleRun` flow of the Run page over an explicit `runs` table:
guard `!selectedPrompt || !user`, resolve the prompt by id (throwing,
hence aborting with no write, when absent), fabricate latency/tokens/cost
from the two pseudo-random draws, then insert exactly one row; a store
rejection (`storeOk = false`) leaves the table unchanged and surfaces the
error. -/
def handleRun (runsTable : List RunRow) (prompts : List Prompt)
    (selectedPrompt selectedModel : String) (user : Option String)
    (r1 r2 : ℚ) (storeOk : Bool) : RunOutcome × List RunRow :=
  match user with
  | none => (RunOutcome.noSelection, runsTable)
  | some uid =>
    if selectedPrompt = "" then (RunOutcome.noSelection, runsTable)
    else
      match prompts.find? (fun p => p.id = selectedPrompt) with
      | none => (RunOutcome.promptNotFound, runsTable)
      | some p =>
        let row := mkRunRow p selectedModel uid r1 r2
        if storeOk then (RunOutcome.success row, runsTable ++ [row])
        else (RunOutcome.storeError, runsTable)

/-- The row carried by a success outcome, if any. -/
def successRow : RunOutcome → Option RunRow
  | RunOutcome.success row => some row
  | _ => none

/-- The prompts and runs tables, for the cascade-delete claim. -/
structure DB where
  prompts : List Prompt
  runs : List RunRow
deriving DecidableEq

/-- `DELETE FROM prompts WHERE id = pid` under the migration's
`prompt_id UUID REFERENCES public.prompts(id) ON DELETE CASCADE`
constraint on `runs`: the prompt row is removed and every run row
referencing it is removed with it. -/
def deletePrompt (db : DB) (pid : String) : DB :=
  { prompts := db.prompts.filter (fun p => p.id ≠ pid)
    runs := db.runs.filter (fun r => r.prompt_id ≠ some pid) }

/-- A row of the `profiles` table. -/
structure ProfileRow where
  id : String
  email : Option String
  full_name : Option String
  avatar_url : Option String
  plan : String
deriving DecidableEq

/-- A row of the `projects` table (the fields the policies read). -/
structure ProjectRow where
  id : String
  name : String
  user_id : String
deriving DecidableEq

/-- Policy "Users can view their own projects": `USING (auth.uid() = user_id)`. -/
def projectsSelectPolicy (uid : String) (row : ProjectRow) : Bool :=
  uid = row.user_id

/-- Policy "Users can view their own prompts": `USING (auth.uid() = user_id)`. -/
def promptsSelectPolicy (uid : String) (row : Prompt) : Bool :=
  uid = row.user_id

/-- Policy "Users can view their own runs": `USING (auth.uid() = user_id)`. -/
def runsSelectPolicy (uid : String) (row : RunRow) : Bool :=
  uid = row.user_id

/-- Policy "Users can view all profiles": `USING (true)`. -/
def profilesSelectPolicy (_uid : String) (_row : ProfileRow) : Bool :=
  true

/-- Policy "Users can update their own profile": `USING (auth.uid() = id)`. -/
def profilesUpdatePolicy (uid : String) (row : ProfileRow) : Bool :=
  uid = row.id

/-- Policy "Users can insert their own profile": `WITH CHECK (auth.uid() = id)`. -/
def profilesInsertPolicy (uid : String) (row : ProfileRow) : Bool :=
  uid = row.id

/-- The rows of a table a SELECT by `uid` returns under a row-level
security policy. -/
def visibleRows {α : Type} (policy : String → α → Bool) (uid : String)
    (rows : List α) : List α :=
  rows.filter (policy uid)

/-- Spec-side description of the per-model unit cost: a static lookup by
model identifier, defaulting to 0 for unknown models (values as listed
in the specification's cost table). -/
def specUnitCost (model : String) : ℚ :=
  if model = "gpt-4" then 3 / 100
  else if model = "gpt-3.5-turbo" then 2 / 1000
  else if model = "claude-3-opus" then 15 / 1000
  else if model = "claude-3-sonnet" then 3 / 1000
  else if model = "gemini-pro" then 1 / 4000
  else 0

/-- A row's latency with a missing latency treated as 0. -/
def latencyOf (r : RunRow) : ℚ := r.latency_ms.getD 0

/-- A row's cost with a missing cost treated as 0. -/
def costOf (r : RunRow) : ℚ := r.cost_usd.getD 0

/-- The number of rows using a given model. -/
def countModel (runs : List RunRow) (m : String) : ℕ :=
  (runs.filter (fun r => r.model = m)).length

/-- The number of rows whose status is exactly `completed`. -/
def completedCount (runs : List RunRow) : ℕ :=
  (runs.filter (fun r => r.status = some "completed")).length

/-- The keys of the `modelCounts` association list. -/
def countsKeys (acc : List (String × ℕ)) : List String := acc.map Prod.fst

/-- The total of the counts stored in the `modelCounts` association list. -/
def sumCounts (acc : List (String × ℕ)) : ℕ := (acc.map Prod.snd).sum

/-- `acc[m] || 0`: the count stored under key `m` (first occurrence),
or 0 when absent. -/
def lookupCount : List (String × ℕ) → String → ℕ
  | [], _ => 0
  | p :: rest, m => if p.1 = m then p.2 else lookupCount rest m

/-- Example run rows used by the concrete witnesses below. -/
def exRun1 : RunRow :=
  { prompt_id := some "p1", model := "gpt-4", response := none,
    tokens_used := some 10, latency_ms := some 100, cost_usd := some (1 / 100),
    status := some "completed", user_id := "u1" }

def exRun2 : RunRow :=
  { prompt_id := some "p1", model := "gpt-4", response := none,
    tokens_used := some 10, latency_ms := some 300, cost_usd := some (2 / 100),
    status := some "completed", user_id := "u1" }

def exRun3 : RunRow :=
  { prompt_id := some "p1", model := "claude-3-opus", response := none,
    tokens_used := some 10, latency_ms := some 200, cost_usd := some 0,
    status := some "pending", user_id := "u1" }

/-- An example prompt row used by the concrete witnesses below. -/
def exPrompt : Prompt :=
  { id := "p1", title := "t", content := "c", model := "gpt-4", user_id := "u1" }

/-- Example rows owned by a second user, for the cross-user policy witness. -/
def exProfile2 : ProfileRow :=
  { id := "u2", email := none, full_name := none, avatar_url := none,
    plan := "free" }

def exProject2 : ProjectRow :=
  { id := "pj1", name := "n", user_id := "u2" }

def exPrompt2 : Prompt :=
  { id := "p2", title := "t", content := "c", model := "gpt-4", user_id := "u2" }

def exRunOther : RunRow :=
  { prompt_id := none, model := "gpt-4", response := none, tokens_used := none,
    latency_ms := none, cost_usd := none, status := none, user_id := "u2" }

/-! ### Lemmas about the model-count association list -/

lemma any_key_iff (acc : List (String × ℕ)) (m : String) :
    acc.any (fun p => p.1 = m) = true ↔ m ∈ countsKeys acc := by
  simp [countsKeys, List.any_eq_true]

lemma countsKeys_map_incr (acc : List (String × ℕ)) (m : String) :
    countsKeys (acc.map (fun p => if p.1 = m then (p.1, p.2 + 1) else p)) =
      countsKeys acc := by
  induction acc with
  | nil => rfl
  | cons p rest ih =>
    by_cases h : p.1 = m <;> simp [countsKeys, h] <;>
      simpa [countsKeys] using ih

lemma countsKeys_addModel_mem {acc : List (String × ℕ)} {m : String}
    (h : m ∈ countsKeys acc) :
    countsKeys (addModel acc m) = countsKeys acc := by
  unfold addModel
  rw [if_pos ((any_key_iff acc m).mpr h)]
  exact countsKeys_map_incr acc m

lemma countsKeys_addModel_not_mem {acc : List (String × ℕ)} {m : String}
    (h : m ∉ countsKeys acc) :
    countsKeys (addModel acc m) = countsKeys acc ++ [m] := by
  unfold addModel
  rw [if_neg (fun hc => h ((any_key_iff acc m).mp hc))]
  simp [countsKeys]

lemma nodup_countsKeys_addModel {acc : List (String × ℕ)} {m : String}
    (h : (countsKeys acc).Nodup) :
    (countsKeys (addModel acc m)).Nodup := by
  by_cases hm : m ∈ countsKeys acc
  · rw [countsKeys_addModel_mem hm]; exact h
  · rw [countsKeys_addModel_not_mem hm]
    simp [List.nodup_append, h, hm]

lemma mem_countsKeys_addModel (acc : List (String × ℕ)) (m m' : String) :
    m' ∈ countsKeys (addModel acc m) ↔ m' ∈ countsKeys acc ∨ m' = m := by
  by_cases hm : m ∈ countsKeys acc
  · rw [countsKeys_addModel_mem hm]
    constructor
    · exact Or.inl
    · rintro (h | h)
      · exact h
      · exact h ▸ hm
  · rw [countsKeys_addModel_not_mem hm]
    simp

lemma lookupCount_eq_zero_of_not_mem {m : String} :
    ∀ {acc : List (String × ℕ)}, m ∉ countsKeys acc → lookupCount acc m = 0 := by
  intro acc
  induction acc with
  | nil => intro _; rfl
  | cons p rest ih =>
    intro h
    have h1 : ¬ p.1 = m := fun he => h (by simp [countsKeys, he])
    have h2 : m ∉ countsKeys rest := fun hm => h (by simp [countsKeys] at hm ⊢; exact Or.inr hm)
    simp [lookupCount, h1, ih h2]

lemma lookupCount_map_incr (m : String) (acc : List (String × ℕ)) :
    lookupCount (acc.map (fun p => if p.1 = m then (p.1, p.2 + 1) else p)) m =
      (if m ∈ countsKeys acc then lookupCount acc m + 1 else 0) := by
  induction acc with
  | nil => simp [lookupCount, countsKeys]
  | cons p rest ih =>
    by_cases h : p.1 = m
    · simp [lookupCount, countsKeys, h]
    · have hgp : (if p.1 = m then (p.1, p.2 + 1) else p) = p := if_neg h
      have hks : countsKeys (p :: rest) = p.1 :: countsKeys rest := rfl
      rw [List.map_cons, hgp, hks]
      simp only [lookupCount]
      rw [if_neg h, if_neg h, ih]
      by_cases hmem : m ∈ countsKeys rest
      · rw [if_pos hmem, if_pos (List.mem_cons_of_mem _ hmem)]
      · rw [if_neg hmem, if_neg (fun hc => by
          rcases List.mem_cons.mp hc with he | hr
          · exact h he.symm
          · exact hmem hr)]

lemma lookupCount_map_other {m m' : String} (hne : ¬ m = m')
    (acc : List (String × ℕ)) :
    lookupCount (acc.map (fun p => if p.1 = m then (p.1, p.2 + 1) else p)) m' =
      lookupCount acc m' := by
  induction acc with
  | nil => rfl
  | cons p rest ih =>
    by_cases h : p.1 = m
    · simp [lookupCount, h, hne, ih]
    · simp [lookupCount, h, ih]

lemma lookupCount_append_single (acc : List (String × ℕ)) (m m' : String) :
    lookupCount (acc ++ [(m, 1)]) m' =
      (if m' ∈ countsKeys acc then lookupCount acc m'
       else if m = m' then 1 else 0) := by
  induction acc with
  | nil => simp [lookupCount, countsKeys]
  | cons p rest ih =>
    by_cases h : p.1 = m'
    · simp [lookupCount, countsKeys, h]
    · have hks : countsKeys (p :: rest) = p.1 :: countsKeys rest := rfl
      rw [List.cons_append, hks]
      simp only [lookupCount]
      rw [if_neg h, if_neg h, ih]
      by_cases hmem : m' ∈ countsKeys rest
      · rw [if_pos hmem, if_pos (List.mem_cons_of_mem _ hmem)]
      · rw [if_neg (show m' ∉ p.1 :: countsKeys rest from fun hc => by
          rcases List.mem_cons.mp hc with he | hr
          · exact h he.symm
          · exact hmem hr), if_neg hmem]

lemma lookupCount_addModel (acc : List (String × ℕ)) (m m' : String) :
    lookupCount (addModel acc m) m' =
      lookupCount acc m' + (if m = m' then 1 else 0) := by
  unfold addModel
  by_cases hm : m ∈ countsKeys acc
  · rw [if_pos ((any_key_iff acc m).mpr hm)]
    by_cases he : m = m'
    · subst he
      rw [lookupCount_map_incr, if_pos hm, if_pos rfl]
    · rw [lookupCount_map_other he, if_neg he]
      omega
  · rw [if_neg (fun hc => hm ((any_key_iff acc m).mp hc)),
      lookupCount_append_single]
    by_cases hm' : m' ∈ countsKeys acc
    · rw [if_pos hm']
      have hne : ¬ m = m' := fun he => hm (he ▸ hm')
      rw [if_neg hne]
      omega
    · rw [if_neg hm', lookupCount_eq_zero_of_not_mem hm']
      by_cases he : m = m' <;> simp [he]

lemma map_incr_id (m : String) :
    ∀ (acc : List (String × ℕ)), m ∉ countsKeys acc →
      acc.map (fun p => if p.1 = m then (p.1, p.2 + 1) else p) = acc := by
  intro acc
  induction acc with
  | nil => intro _; rfl
  | cons p rest ih =>
    intro h
    have h1 : ¬ p.1 = m := fun he => h (by simp [countsKeys, he])
    have h2 : m ∉ countsKeys rest := fun hm => h (by simp [countsKeys] at hm ⊢; exact Or.inr hm)
    simp [h1, ih h2]

lemma sumCounts_map_incr (m : String) :
    ∀ (acc : List (String × ℕ)), (countsKeys acc).Nodup → m ∈ countsKeys acc →
      sumCounts (acc.map (fun p => if p.1 = m then (p.1, p.2 + 1) else p)) =
        sumCounts acc + 1 := by
  intro acc
  induction acc with
  | nil => intro _ hm; simp [countsKeys] at hm
  | cons p rest ih =>
    intro hnd hm
    have hnd' : (p.1 :: countsKeys rest).Nodup := hnd
    have hnd2 := List.nodup_cons.mp hnd'
    by_cases h : p.1 = m
    · have hrest : m ∉ countsKeys rest := h ▸ hnd2.1
      simp [sumCounts, h, map_incr_id m rest hrest]
      omega
    · have hmem : m ∈ countsKeys rest := by
        rcases (by simpa [countsKeys] using hm : m = p.1 ∨ m ∈ countsKeys rest) with he | hr
        · exact absurd he.symm h
        · exact hr
      simp [sumCounts, h] at ih ⊢
      rw [ih hnd2.2 hmem]
      omega

lemma sumCounts_addModel (acc : List (String × ℕ)) (m : String)
    (h : (countsKeys acc).Nodup) :
    sumCounts (addModel acc m) = sumCounts acc + 1 := by
  unfold addModel
  by_cases hm : m ∈ countsKeys acc
  · rw [if_pos ((any_key_iff acc m).mpr hm)]
    exact sumCounts_map_incr m acc h hm
  · rw [if_neg (fun hc => hm ((any_key_iff acc m).mp hc))]
    simp [sumCounts]

lemma snd_eq_lookupCount :
    ∀ (acc : List (String × ℕ)), (countsKeys acc).Nodup →
      ∀ p ∈ acc, p.2 = lookupCount acc p.1 := by
  intro acc
  induction acc with
  | nil => intro _ p hp; simp at hp
  | cons q rest ih =>
    intro hnd p hp
    have hnd' : (q.1 :: countsKeys rest).Nodup := hnd
    have hnd2 := List.nodup_cons.mp hnd'
    rcases List.mem_cons.mp hp with he | hm
    · subst he; simp [lookupCount]
    · have hne : ¬ q.1 = p.1 := by
        intro hq
        apply hnd2.1
        rw [hq]
        exact List.mem_map.mpr ⟨p, hm, rfl⟩
      simp [lookupCount, hne]
      exact ih hnd2.2 p hm

lemma countModel_cons (r : RunRow) (rest : List RunRow) (m : String) :
    countModel (r :: rest) m =
      (if r.model = m then 1 else 0) + countModel rest m := by
  by_cases h : r.model = m <;> simp [countModel, List.filter, h] <;> omega

lemma modelCounts_fold :
    ∀ (runs : List RunRow) (acc : List (String × ℕ)),
      (countsKeys acc).Nodup →
      (countsKeys (runs.foldl (fun a r => addModel a r.model) acc)).Nodup ∧
      sumCounts (runs.foldl (fun a r => addModel a r.model) acc) =
        sumCounts acc + runs.length ∧
      (∀ m, lookupCount (runs.foldl (fun a r => addModel a r.model) acc) m =
        lookupCount acc m + countModel runs m) ∧
      (∀ m, m ∈ countsKeys (runs.foldl (fun a r => addModel a r.model) acc) ↔
        m ∈ countsKeys acc ∨ m ∈ runs.map RunRow.model) := by
  intro runs
  induction runs with
  | nil =>
    intro acc hacc
    exact ⟨hacc, by simp, fun m => by simp [countModel], fun m => by simp⟩
  | cons r rest ih =>
    intro acc hacc
    obtain ⟨h1, h2, h3, h4⟩ := ih (addModel acc r.model) (nodup_countsKeys_addModel hacc)
    refine ⟨h1, ?_, ?_, ?_⟩
    · rw [List.foldl_cons, h2, sumCounts_addModel acc r.model hacc]
      simp [List.length_cons]
      omega
    · intro m
      rw [List.foldl_cons, h3 m, lookupCount_addModel, countModel_cons]
      by_cases h : r.model = m <;> simp [h] <;> omega
    · intro m
      rw [List.foldl_cons, h4 m, mem_countsKeys_addModel]
      simp [List.mem_cons]
      tauto

/-- A left fold accumulating `+ f x` computes the sum of the mapped list. -/
lemma foldl_add_map {α : Type} (f : α → ℚ) :
    ∀ (l : List α) (a : ℚ), l.foldl (fun s x => s + f x) a = a + (l.map f).sum := by
  intro l
  induction l with
  | nil => intro a; simp
  | cons x xs ih =>
    intro a
    rw [List.foldl_cons, ih, List.map_cons, List.sum_cons]
    ring

/-- The static lookup in `MODELS` agrees with the specification's cost
table, including the 0 default for unknown model identifiers. -/
lemma modelCost_eq_spec (model : String) : modelCost model = specUnitCost model := by
  by_cases h1 : model = "gpt-4"
  · simp [modelCost, MODELS, List.find?, specUnitCost, h1]
  · by_cases h2 : model = "gpt-3.5-turbo"
    · simp [modelCost, MODELS, List.find?, specUnitCost, h1, h2]
    · by_cases h3 : model = "claude-3-opus"
      · simp [modelCost, MODELS, List.find?, specUnitCost, h1, h2, h3]
      · by_cases h4 : model = "claude-3-sonnet"
        · simp [modelCost, MODELS, List.find?, specUnitCost, h1, h2, h3, h4]
        · by_cases h5 : model = "gemini-pro"
          · simp [modelCost, MODELS, List.find?, specUnitCost, h1, h2, h3, h4, h5]
          · simp [modelCost, MODELS, List.find?, specUnitCost, h1, h2, h3, h4, h5,
              Ne.symm h1, Ne.symm h2, Ne.symm h3, Ne.symm h4, Ne.symm h5]

/-- A non-empty list is not `isEmpty`. -/
lemma isEmpty_false_of_ne_nil {α : Type} {l : List α} (h : l ≠ []) :
    l.isEmpty = false := by
  cases l with
  | nil => exact absurd rfl h
  | cons x xs => rfl

/-- Summing `count / d * 100` over an association list equals the summed
counts divided by `d`, times 100. -/
lemma sum_map_div_mul (l : List (String × ℕ)) (d : ℚ) :
    (l.map (fun p => (p.2 : ℚ) / d * 100)).sum =
      ((l.map Prod.snd).sum : ℚ) / d * 100 := by
  induction l with
  | nil => simp
  | cons p rest ih =>
    rw [List.map_cons, List.sum_cons, ih, List.map_cons, List.sum_cons]
    push_cast
    ring

/-! ### Claim theorems -/

/-- Claim C1: for every non-empty set of run rows, the aggregator's
`avgLatency` equals the arithmetic mean of the rows' latencies (a missing
latency counting as 0), rounded to the nearest integer millisecond. -/
theorem avg_latency_is_rounded_mean (runs : List RunRow) (h : runs ≠ []) :
    (loadAnalytics runs).avgLatency =
      round ((runs.map latencyOf).sum / (runs.length : ℚ)) := by
  rw [loadAnalytics, if_neg (by simp [isEmpty_false_of_ne_nil h])]
  show round ((runs.foldl (fun s r => s + r.latency_ms.getD 0) 0) /
      (runs.length : ℚ)) =
    round ((runs.map (fun r : RunRow => r.latency_ms.getD 0)).sum /
      (runs.length : ℚ))
  rw [foldl_add_map (fun r : RunRow => r.latency_ms.getD 0) runs 0]
  simp

/-- Witness for C1 at a concrete three-row run set (mean latency 200). -/
theorem avg_latency_is_rounded_mean_witness :
    ([exRun1, exRun2, exRun3] : List RunRow) ≠ [] ∧
    (loadAnalytics [exRun1, exRun2, exRun3]).avgLatency =
      round ((([exRun1, exRun2, exRun3] : List RunRow).map latencyOf).sum /
        (([exRun1, exRun2, exRun3] : List RunRow).length : ℚ)) :=
  ⟨by simp, avg_latency_is_rounded_mean [exRun1, exRun2, exRun3] (by simp)⟩

/-- Claim C2: for every non-empty set of run rows, the aggregator's
`successRate` is the percentage of rows with status exactly `completed`,
rounded to the nearest integer, and it lies between 0 and 100. -/
theorem success_rate_spec (runs : List RunRow) (h : runs ≠ []) :
    (loadAnalytics runs).successRate =
      round ((completedCount runs : ℚ) / (runs.length : ℚ) * 100) ∧
    0 ≤ (loadAnalytics runs).successRate ∧
    (loadAnalytics runs).successRate ≤ 100 := by
  have heq : (loadAnalytics runs).successRate =
      round ((completedCount runs : ℚ) / (runs.length : ℚ) * 100) := by
    rw [loadAnalytics, if_neg (by simp [isEmpty_false_of_ne_nil h])]
    rfl
  have hlen : (0 : ℚ) < (runs.length : ℚ) := by
    exact_mod_cast List.length_pos.mpr h
  have hc : (completedCount runs : ℚ) ≤ (runs.length : ℚ) := by
    exact_mod_cast List.length_filter_le _ runs
  have hx0 : (0 : ℚ) ≤ (completedCount runs : ℚ) / (runs.length : ℚ) * 100 := by
    positivity
  have hx1 : (completedCount runs : ℚ) / (runs.length : ℚ) * 100 ≤ 100 := by
    have hdiv : (completedCount runs : ℚ) / (runs.length : ℚ) ≤ 1 := by
      rw [div_le_one hlen]; exact hc
    nlinarith
  refine ⟨heq, ?_, ?_⟩
  · rw [heq, round_eq]
    exact Int.le_floor.mpr (by push_cast; linarith)
  · rw [heq, round_eq]
    have hlt := Int.floor_lt.mpr
      (show (completedCount runs : ℚ) / (runs.length : ℚ) * 100 + 1 / 2 <
        ((101 : ℤ) : ℚ) by push_cast; linarith)
    omega

/-- Witness for C2 at a concrete three-row run set (2 of 3 completed,
success rate 67). -/
theorem success_rate_spec_witness :
    ([exRun1, exRun2, exRun3] : List RunRow) ≠ [] ∧
    ((loadAnalytics [exRun1, exRun2, exRun3]).successRate =
        round ((completedCount [exRun1, exRun2, exRun3] : ℚ) /
          (([exRun1, exRun2, exRun3] : List RunRow).length : ℚ) * 100) ∧
      0 ≤ (loadAnalytics [exRun1, exRun2, exRun3]).successRate ∧
      (loadAnalytics [exRun1, exRun2, exRun3]).successRate ≤ 100) :=
  ⟨by simp, success_rate_spec [exRun1, exRun2, exRun3] (by simp)⟩

/-- Claim C3: the model breakdown has exactly one entry per distinct
model appearing in the rows; each entry's count is the number of rows
with that model and its percentage is `count / total_runs * 100`
unrounded; the counts sum to the total run count; and on a non-empty set
the percentages sum to exactly 100. -/
theorem model_breakdown_spec (runs : List RunRow) :
    ((loadAnalytics runs).modelBreakdown.map BreakdownEntry.model).Nodup ∧
    (∀ m : String,
      m ∈ (loadAnalytics runs).modelBreakdown.map BreakdownEntry.model ↔
        m ∈ runs.map RunRow.model) ∧
    ((loadAnalytics runs).modelBreakdown.all (fun e =>
      e.count = countModel runs e.model ∧
      e.percentage = (e.count : ℚ) / (runs.length : ℚ) * 100)) = true ∧
    (loadAnalytics runs).totalRuns = runs.length ∧
    ((loadAnalytics runs).modelBreakdown.map BreakdownEntry.count).sum =
      runs.length ∧
    ((loadAnalytics runs).modelBreakdown.map BreakdownEntry.percentage).sum =
      (if runs.isEmpty then 0 else 100) := by
  by_cases hr : runs = []
  · subst hr
    exact ⟨by simp [loadAnalytics, initialStats],
      by simp [loadAnalytics, initialStats],
      by simp [loadAnalytics, initialStats], rfl, rfl, rfl⟩
  · have hne : runs.isEmpty = false := isEmpty_false_of_ne_nil hr
    have hbd : (loadAnalytics runs).modelBreakdown = modelBreakdownOf runs := by
      rw [loadAnalytics, if_neg (by simp [hne])]
    obtain ⟨hnd, hsum, hlook, hmem⟩ := modelCounts_fold runs [] (by simp [countsKeys])
    have hmc : runs.foldl (fun a r => addModel a r.model) [] = modelCounts runs := rfl
    rw [hmc] at hnd hsum hlook hmem
    have hkeys : (modelBreakdownOf runs).map BreakdownEntry.model =
        countsKeys (modelCounts runs) := by
      rw [modelBreakdownOf, List.map_map]
      rfl
    have hcounts : (modelBreakdownOf runs).map BreakdownEntry.count =
        (modelCounts runs).map Prod.snd := by
      rw [modelBreakdownOf, List.map_map]
      rfl
    have hpercs : (modelBreakdownOf runs).map BreakdownEntry.percentage =
        (modelCounts runs).map (fun p => (p.2 : ℚ) / (runs.length : ℚ) * 100) := by
      rw [modelBreakdownOf, List.map_map]
      rfl
    have hsum5 : ((modelCounts runs).map Prod.snd).sum = runs.length := by
      simpa [sumCounts] using hsum
    refine ⟨?_, ?_, ?_, ?_, ?_, ?_⟩
    · rw [hbd, hkeys]
      exact hnd
    · intro m
      rw [hbd, hkeys]
      exact (hmem m).trans (by simp [countsKeys])
    · rw [hbd, List.all_eq_true]
      intro e he
      rw [modelBreakdownOf] at he
      obtain ⟨p, hp, rfl⟩ := List.mem_map.mp he
      simp only [decide_eq_true_eq]
      constructor
      · have h1 := snd_eq_lookupCount (modelCounts runs) hnd p hp
        have h2 := hlook p.1
        rw [show lookupCount [] p.1 = 0 from rfl, Nat.zero_add] at h2
        show p.2 = countModel runs p.1
        exact h1.trans h2
      · trivial
    · rw [loadAnalytics, if_neg (by simp [hne])]
    · rw [hbd, hcounts]
      exact hsum5
    · rw [hbd, hpercs, hne, if_neg (by simp), sum_map_div_mul, hsum5]
      have hlen0 : (runs.length : ℚ) ≠ 0 := by
        have hpos : 0 < runs.length := List.length_pos.mpr hr
        exact_mod_cast Nat.pos_iff_ne_zero.mp hpos
      field_simp

/-- Claim C4: aggregating the empty run set returns early with the zeroed
initial state: all stats 0 and an empty breakdown, with no division. -/
theorem aggregate_empty_zeroed :
    loadAnalytics [] = initialStats ∧
    initialStats.totalRuns = 0 ∧ initialStats.totalCost = 0 ∧
    initialStats.avgLatency = 0 ∧ initialStats.successRate = 0 ∧
    initialStats.modelBreakdown = ([] : List BreakdownEntry) :=
  ⟨rfl, rfl, rfl, rfl, rfl, rfl⟩

/-- Claim C5: the computed cost of a run is `(tokens / 1000)` times the
per-model unit cost obtained by static lookup of the model identifier,
with unknown models costing 0 (the spec-side table `specUnitCost`). -/
theorem compute_cost_static_lookup (tokens : ℚ) (model : String) :
    computeCost tokens model = tokens / 1000 * specUnitCost model := by
  rw [computeCost, modelCost_eq_spec]

/-- Counterexample for C6: with model `gemini-pro` (unit cost 0.00025)
and 400 tokens the computed cost is not 0.1. -/
theorem gemini_scenario_claimed_cost_false :
    ¬ (computeCost 400 "gemini-pro" = 1 / 10) := by
  simp [computeCost, modelCost, MODELS, List.find?]
  norm_num

/-- Claim C6 (amended): with model `gemini-pro` (unit cost 0.00025) and
400 tokens the computed cost is (400 / 1000) * 0.00025 = 0.0001. -/
theorem gemini_scenario_cost :
    computeCost 400 "gemini-pro" = 1 / 10000 := by
  simp [computeCost, modelCost, MODELS, List.find?]
  norm_num

/-- Claim C7: for every pseudo-random draw in `[0, 1)` the fabricated
token count is an integer in `[100, 500)` and the fabricated delay is in
`[2000, 4000)` milliseconds. -/
theorem simulator_ranges (r1 r2 : ℚ) (h1a : 0 ≤ r1) (h1b : r1 < 1)
    (h2a : 0 ≤ r2) (h2b : r2 < 1) :
    (100 ≤ simTokens r2 ∧ simTokens r2 < 500) ∧
    (2000 ≤ simLatency r1 ∧ simLatency r1 < 4000) := by
  refine ⟨⟨?_, ?_⟩, ?_, ?_⟩
  · rw [simTokens]
    exact Int.le_floor.mpr (by push_cast; nlinarith)
  · rw [simTokens]
    exact Int.floor_lt.mpr (by push_cast; nlinarith)
  · rw [simLatency]; nlinarith
  · rw [simLatency]; nlinarith

/-- Witness for C7 at the draw 1/2 (tokens 300, delay 3000). -/
theorem simulator_ranges_witness :
    ((0 : ℚ) ≤ 1 / 2 ∧ (1 / 2 : ℚ) < 1) ∧
    ((100 ≤ simTokens (1 / 2) ∧ simTokens (1 / 2) < 500) ∧
      (2000 ≤ simLatency (1 / 2) ∧ simLatency (1 / 2) < 4000)) :=
  ⟨⟨by norm_num, by norm_num⟩,
    simulator_ranges (1 / 2) (1 / 2) (by norm_num) (by norm_num)
      (by norm_num) (by norm_num)⟩

/-- Claim C8: the run flow writes a run row exactly when it succeeds: the
resulting table is the old table extended by the success row (and only
then); an unresolved prompt identifier yields the not-found failure with
no write; the inserted row carries status `completed`, the computed
fields and the acting user's identifier; and with no prompt selected or
no user the guard fires before any store call, leaving the table
unchanged. -/
theorem handle_run_spec (runsTable : List RunRow) (prompts : List Prompt)
    (selectedPrompt selectedModel uid : String) (p : Prompt) (r1 r2 : ℚ)
    (storeOk : Bool) (hsp : selectedPrompt ≠ "") :
    ((handleRun runsTable prompts selectedPrompt selectedModel (some uid)
        r1 r2 storeOk).2 =
      runsTable ++ (successRow (handleRun runsTable prompts selectedPrompt
        selectedModel (some uid) r1 r2 storeOk).1).toList) ∧
    (prompts.find? (fun q => q.id = selectedPrompt) = none →
      handleRun runsTable prompts selectedPrompt selectedModel (some uid)
          r1 r2 storeOk =
        (RunOutcome.promptNotFound, runsTable)) ∧
    (prompts.find? (fun q => q.id = selectedPrompt) = some p → storeOk = true →
      handleRun runsTable prompts selectedPrompt selectedModel (some uid)
          r1 r2 storeOk =
        (RunOutcome.success (mkRunRow p selectedModel uid r1 r2),
          runsTable ++ [mkRunRow p selectedModel uid r1 r2])) ∧
    (mkRunRow p selectedModel uid r1 r2).status = some "completed" ∧
    (mkRunRow p selectedModel uid r1 r2).user_id = uid ∧
    (mkRunRow p selectedModel uid r1 r2).model = selectedModel ∧
    (mkRunRow p selectedModel uid r1 r2).prompt_id = some p.id ∧
    (mkRunRow p selectedModel uid r1 r2).tokens_used = some (simTokens r2) ∧
    (mkRunRow p selectedModel uid r1 r2).latency_ms = some (simLatency r1) ∧
    (mkRunRow p selectedModel uid r1 r2).cost_usd =
      some (computeCost ((simTokens r2 : ℤ) : ℚ) selectedModel) ∧
    handleRun runsTable prompts "" selectedModel (some uid) r1 r2 storeOk =
      (RunOutcome.noSelection, runsTable) ∧
    handleRun runsTable prompts selectedPrompt selectedModel none r1 r2 storeOk =
      (RunOutcome.noSelection, runsTable) := by
  refine ⟨?_, ?_, ?_, rfl, rfl, rfl, rfl, rfl, rfl, rfl, ?_, rfl⟩
  · simp only [handleRun]
    rw [if_neg hsp]
    cases hfind : prompts.find? (fun q => q.id = selectedPrompt) with
    | none => simp [successRow]
    | some q =>
      cases storeOk with
      | true => simp [successRow]
      | false => simp [successRow]
  · intro hfind
    simp [handleRun, hsp, hfind]
  · intro hfind hok
    simp [handleRun, hsp, hfind, hok]
  · simp [handleRun]

/-- Witness for C8: a successful run of an existing prompt by a concrete
user, together with the guard and not-found scenarios at the same
inputs. -/
theorem handle_run_spec_witness :
    ("p1" : String) ≠ "" ∧
    (((handleRun [] [exPrompt] "p1" "gpt-4" (some "u1") 0 0 true).2 =
        [] ++ (successRow (handleRun [] [exPrompt] "p1" "gpt-4" (some "u1")
          0 0 true).1).toList) ∧
      (([exPrompt].find? (fun q => q.id = "p1") = none) →
        handleRun [] [exPrompt] "p1" "gpt-4" (some "u1") 0 0 true =
          (RunOutcome.promptNotFound, [])) ∧
      (([exPrompt].find? (fun q => q.id = "p1") = some exPrompt) →
        (true = true) →
        handleRun [] [exPrompt] "p1" "gpt-4" (some "u1") 0 0 true =
          (RunOutcome.success (mkRunRow exPrompt "gpt-4" "u1" 0 0),
            [] ++ [mkRunRow exPrompt "gpt-4" "u1" 0 0])) ∧
      (mkRunRow exPrompt "gpt-4" "u1" 0 0).status = some "completed" ∧
      (mkRunRow exPrompt "gpt-4" "u1" 0 0).user_id = "u1" ∧
      (mkRunRow exPrompt "gpt-4" "u1" 0 0).model = "gpt-4" ∧
      (mkRunRow exPrompt "gpt-4" "u1" 0 0).prompt_id = some exPrompt.id ∧
      (mkRunRow exPrompt "gpt-4" "u1" 0 0).tokens_used = some (simTokens 0) ∧
      (mkRunRow exPrompt "gpt-4" "u1" 0 0).latency_ms = some (simLatency 0) ∧
      (mkRunRow exPrompt "gpt-4" "u1" 0 0).cost_usd =
        some (computeCost ((simTokens 0 : ℤ) : ℚ) "gpt-4") ∧
      handleRun [] [exPrompt] "" "gpt-4" (some "u1") 0 0 true =
        (RunOutcome.noSelection, []) ∧
      handleRun [] [exPrompt] "p1" "gpt-4" none 0 0 true =
        (RunOutcome.noSelection, [])) :=
  ⟨by simp,
    handle_run_spec [] [exPrompt] "p1" "gpt-4" "u1" exPrompt 0 0 true (by simp)⟩

/-- Claim C9: deleting a prompt row removes, through the cascade
constraint, every run row referencing it: afterwards no run row
references the deleted prompt (and the prompt row itself is gone). -/
theorem delete_prompt_cascades (db : DB) (pid : String) :
    ((deletePrompt db pid).runs.all (fun r => r.prompt_id ≠ some pid)) = true ∧
    ((deletePrompt db pid).prompts.all (fun q => q.id ≠ pid)) = true := by
  constructor
  · rw [List.all_eq_true]
    intro r hr
    simpa using (List.mem_filter.mp hr).2
  · rw [List.all_eq_true]
    intro q hq
    simpa using (List.mem_filter.mp hq).2

/-- Claim C10: the profiles SELECT policy is unconditionally true, so any
user's SELECT returns every profile row, including another user's, while
the projects/prompts/runs SELECT policies and the profiles UPDATE/INSERT
policies restrict to the owning user. -/
theorem profiles_select_unrestricted (u v : String) (rows : List ProfileRow)
    (pr : ProfileRow) (pj : ProjectRow) (pm : Prompt) (rr : RunRow)
    (hpr : pr.id = v) (hpj : pj.user_id = v) (hpm : pm.user_id = v)
    (hrr : rr.user_id = v) (hne : u ≠ v) :
    profilesSelectPolicy u pr = true ∧
    visibleRows profilesSelectPolicy u rows = rows ∧
    projectsSelectPolicy u pj = false ∧
    promptsSelectPolicy u pm = false ∧
    runsSelectPolicy u rr = false ∧
    profilesUpdatePolicy u pr = false ∧
    profilesInsertPolicy u pr = false ∧
    profilesUpdatePolicy v pr = true ∧
    profilesInsertPolicy v pr = true := by
  refine ⟨rfl, ?_, ?_, ?_, ?_, ?_, ?_, ?_, ?_⟩
  · simp [visibleRows, profilesSelectPolicy]
  · simp [projectsSelectPolicy, hpj, hne]
  · simp [promptsSelectPolicy, hpm, hne]
  · simp [runsSelectPolicy, hrr, hne]
  · simp [profilesUpdatePolicy, hpr, hne]
  · simp [profilesInsertPolicy, hpr, hne]
  · simp [profilesUpdatePolicy, hpr]
  · simp [profilesInsertPolicy, hpr]

/-- Witness for C10 with two concrete users and rows owned by the second. -/
theorem profiles_select_unrestricted_witness :
    (exProfile2.id = "u2" ∧ exProject2.user_id = "u2" ∧
      exPrompt2.user_id = "u2" ∧ exRunOther.user_id = "u2" ∧
      ("u1" : String) ≠ "u2") ∧
    (profilesSelectPolicy "u1" exProfile2 = true ∧
      visibleRows profilesSelectPolicy "u1" [exProfile2] = [exProfile2] ∧
      projectsSelectPolicy "u1" exProject2 = false ∧
      promptsSelectPolicy "u1" exPrompt2 = false ∧
      runsSelectPolicy "u1" exRunOther = false ∧
      profilesUpdatePolicy "u1" exProfile2 = false ∧
      profilesInsertPolicy "u1" exProfile2 = false ∧
      profilesUpdatePolicy "u2" exProfile2 = true ∧
      profilesInsertPolicy "u2" exProfile2 = true) :=
  ⟨⟨rfl, rfl, rfl, rfl, by simp⟩,
    profiles_select_unrestricted "u1" "u2" [exProfile2] exProfile2 exProject2
      exPrompt2 exRunOther rfl rfl rfl rfl (by simp)⟩

end PromptPilot
